import Mathlib

/-!
Shallow embedding of the MRCZ format adapter `rsciio/mrcz/api.py`.

The module is two adapter functions around an external codec library:

* `file_reader` validates the memory-map mode, calls the external
  `readMRC` decode routine (modelled here by taking the decoded data
  shape and header as explicit inputs and recording the arguments of the
  decode call), builds three axis descriptors from the header, reorders
  them, prunes format-internal keys from a copy of the header, and
  returns a single-element list holding one signal dictionary.
* `file_writer` assembles the keyword arguments of the external
  `writeMRC` / `asyncWriteMRC` encode routine from the signal dictionary
  and dispatches to the synchronous or asynchronous variant; the call is
  modelled by returning a record of the encode invocation.

Python floats carry no arithmetic in this module (pixel sizes are only
moved around), so scalar header values are modelled by rationals.
Python dicts are modelled by association lists with unique keys; since a
Python dict can hold at most one binding per key, `dict.pop` is modelled
by removing every binding of the key.
-/

namespace Mrcz

/-- A scalar or composite value stored in an MRCZ header field. -/
inductive HVal where
  | num (q : ℚ)
  | str (s : String)
  | qlist (l : List ℚ)
  | other (tag : String)
deriving DecidableEq, Inhabited

/-- The header mapping returned by the external decode routine,
modelled as an association list from field names to values. -/
abbrev Header := List (String × HVal)

/-- Dictionary lookup: the value bound to key `k`, if present. -/
def headerGet (h : Header) (k : String) : Option HVal :=
  (h.find? fun p => p.1 == k).map Prod.snd

/-- Python `k in dict` membership test. -/
def headerContains (h : Header) (k : String) : Bool :=
  (headerGet h k).isSome

/-- Removal of the binding of key `k` (Python `dict.pop` side effect;
a Python dict holds at most one binding per key). -/
def headerRemove (h : Header) (k : String) : Header :=
  h.filter fun p => p.1 != k

/-- The Python exceptions this module can raise or propagate. -/
inductive PyError where
  | valueError (msg : String)
  | keyError (key : String)
  | indexError
  | typeError
deriving DecidableEq, Inhabited

/-- Is the error an invalid-argument (`ValueError`) failure? -/
def PyError.isValueErr : PyError → Bool
  | .valueError _ => true
  | _ => false

/-- The fixed list of format-internal header keys removed from the
metadata copy on read (`_POP_FROM_HEADER` in the source). -/
def _POP_FROM_HEADER : List String :=
  ["compressor", "MRCtype", "C3", "dimensions", "dtype", "extendedBytes",
   "gain", "maxImage", "minImage", "meanImage", "metaId", "packedBytes",
   "pixelsize", "pixelunits", "voltage"]

/-- The fixed index permutation applied to header pixel sizes and data
shape when reading (`_READ_ORDER` in the source). -/
def _READ_ORDER : List Nat := [1, 2, 0]

/-- The fixed index permutation applied to axis scales when writing
(`_WRITE_ORDER` in the source). -/
def _WRITE_ORDER : List Nat := [0, 1, 2]

/-- The static metadata mapping table attached to every signal
dictionary: source header path paired with destination metadata path
(the transform function of the source is the version-dispatching
`_parse_metadata` in both rows and is not modelled). -/
def mapping : List (String × String) :=
  [("mrcz_header.voltage", "Acquisition_instrument.TEM.beam_energy"),
   ("mrcz_header.gain", "Signal.Noise_properties.Variance_linear_model.gain_factor")]

/-- Translation of the endianness indicator to the codec convention:
`mrcz_endian = "le" if endianess == "<" else "be"` (used verbatim by
both the reader and the writer). -/
def mrczEndian (endianess : String) : String :=
  if endianess = "<" then "le" else "be"

/-- One step of the pruning loop: `metadata.pop(popTarget)`, which
raises `KeyError` when the key is absent. -/
def popKey (h : Header) (k : String) : Except PyError Header :=
  if headerContains h k then Except.ok (headerRemove h k)
  else Except.error (PyError.keyError k)

/-- The pruning loop `for popTarget in _POP_FROM_HEADER: metadata.pop(popTarget)`
applied to a copy of the decoded header. -/
def pruneHeader (h : Header) : Except PyError Header :=
  _POP_FROM_HEADER.foldlM popKey h

/-- One axis descriptor of the caller signal-dictionary schema. -/
structure AxisDescriptor where
  size : Nat
  index_in_array : Nat
  name : String
  scale : ℚ
  offset : ℚ
  units : String
  navigate : Bool
deriving DecidableEq, Inhabited

/-- Python sequence indexing `l[i]`, raising `IndexError` out of range. -/
def expectIdx {α : Type} (l : List α) (i : Nat) : Except PyError α :=
  match l.get? i with
  | some x => Except.ok x
  | none => Except.error PyError.indexError

/-- Lookup of `mrcz_header["pixelsize"]`, expected to be a per-axis list. -/
def headerPixelsize (h : Header) : Except PyError (List ℚ) :=
  match headerGet h "pixelsize" with
  | some (HVal.qlist l) => Except.ok l
  | some _ => Except.error PyError.typeError
  | none => Except.error (PyError.keyError "pixelsize")

/-- Lookup of `mrcz_header["pixelunits"]`, expected to be a string. -/
def headerPixelunits (h : Header) : Except PyError String :=
  match headerGet h "pixelunits" with
  | some (HVal.str s) => Except.ok s
  | some _ => Except.error PyError.typeError
  | none => Except.error (PyError.keyError "pixelunits")

/-- One element of the axis-building comprehension: `index` is the
position in the constructed list, `hsIndex` the entry of `_READ_ORDER`
used to index both the data shape and the header pixel-size list. -/
def buildAxis (shape : List Nat) (ps : List ℚ) (pu : String)
    (index hsIndex : Nat) (nav : Bool) : Except PyError AxisDescriptor := do
  let size ← expectIdx shape hsIndex
  let name ← expectIdx ["y", "x", "z"] index
  let scale ← expectIdx ps hsIndex
  pure { size := size, index_in_array := hsIndex, name := name,
         scale := scale, offset := 0, units := pu, navigate := nav }

/-- The axis-building comprehension of the reader: enumerate
`zip(_READ_ORDER, navigate)` with `navigate = [False, False, True]` and
build one descriptor per element. -/
def constructAxes (shape : List Nat) (hdr : Header) :
    Except PyError (List AxisDescriptor) := do
  let ps ← headerPixelsize hdr
  let pu ← headerPixelunits hdr
  ((_READ_ORDER.zip [false, false, true]).enum).mapM fun x =>
    buildAxis shape ps pu x.1 x.2.1 x.2.2

/-- The reorder step `axes.insert(0, axes.pop(2))`: remove the element
at index 2 and reinsert it at the front (`IndexError` when the list is
shorter than three). -/
def popInsertFront {α : Type} (l : List α) : Except PyError (List α) :=
  match l.get? 2 with
  | some x => Except.ok (x :: l.eraseIdx 2)
  | none => Except.error PyError.indexError

/-- The signal dictionary returned by the reader: exactly the five
entries `data`, `axes`, `metadata`, `original_metadata`, `mapping`.
The data array itself is opaque to this module; only its shape is
consulted, so `data` is modelled by the shape. -/
structure SignalDict where
  data : List Nat
  axes : List AxisDescriptor
  metadata : Header
  original_metadata : List (String × Header)
  mapping : List (String × String)
deriving DecidableEq, Inhabited

/-- Record of the arguments the reader hands to the external decode
routine `readMRC(filename, endian=..., useMemmap=lazy, pixelunits="nm", **kwds)`.
Pass-through keyword options are opaque and modelled as string pairs. -/
structure DecodeCall where
  filename : String
  endian : String
  useMemmap : Bool
  pixelunits : String
  kwds : List (String × String)
deriving DecidableEq, Inhabited

/-- Outcome of a reader invocation: whether (and how) the decode
routine was called, and the returned value or raised exception. -/
structure ReadOutcome where
  decodeCall : Option DecodeCall
  result : Except PyError (List SignalDict)
deriving Inhabited

/-- Everything the reader does after the decode call returns: build the
axis descriptors, reorder them, prune a copy of the header, and return
the single-element list holding the signal dictionary. -/
def readerBody (data_shape : List Nat) (mrcz_header : Header) :
    Except PyError (List SignalDict) := do
  let axes0 ← constructAxes data_shape mrcz_header
  let axes ← popInsertFront axes0
  let metadata ← pruneHeader mrcz_header
  pure [{ data := data_shape, axes := axes, metadata := metadata,
          original_metadata := [("mrcz_header", mrcz_header)],
          mapping := mapping }]

/-- The reader adapter `file_reader(filename, endianess="<", lazy=False,
mmap_mode="c", **kwds)`.  The external decode routine is modelled by
taking its returned data shape and header as explicit inputs; the
arguments it would receive are recorded in `decodeCall`. -/
def file_reader (filename endianess : String) (lazy : Bool)
    (mmap_mode : String) (kwds : List (String × String))
    (data_shape : List Nat) (mrcz_header : Header) : ReadOutcome :=
  if mmap_mode ≠ "c" then
    { decodeCall := none,
      result := Except.error
        (PyError.valueError "MRCZ supports only C-ordering memory-maps") }
  else
    { decodeCall := some
        { filename := filename, endian := mrczEndian endianess,
          useMemmap := lazy, pixelunits := "nm", kwds := kwds },
      result := readerBody data_shape mrcz_header }

/-- The signal dictionary handed to the writer: data array (opaque,
modelled by its shape), axis descriptors, and the dotted-path metadata
tree (`DTBox(..., box_dots=True)` lookup), whose leaves relevant to
this module are numeric. -/
structure Signal where
  data : List Nat
  axes : List AxisDescriptor
  metadata : List (String × ℚ)
deriving DecidableEq, Inhabited

/-- Dotted-path metadata lookup `md.get(path)`. -/
def mdGet (md : List (String × ℚ)) (path : String) : Option ℚ :=
  (md.find? fun p => p.1 == path).map Prod.snd

/-- Keyword-option lookup used for `kwds.pop("endianess", "<")`. -/
def lookupKwd (kwds : List (String × String)) (k : String) : Option String :=
  (kwds.find? fun p => p.1 == k).map Prod.snd

/-- Record of the single invocation of the external encode routine
(`writeMRC` or, when `isAsync`, `asyncWriteMRC`) with its full keyword
set.  `extraKwds` records any further keyword options forwarded beyond
the fixed set; the source forwards none, so the writer always records
an empty list there. -/
structure EncodeCall where
  isAsync : Bool
  data : List Nat
  filename : String
  meta : List (String × ℚ)
  endian : String
  pixelsize : List ℚ
  pixelunits : String
  voltage : Option ℚ
  C3 : ℚ
  gain : ℚ
  compressor : Option String
  clevel : Int
  n_threads : Option Int
  extraKwds : List (String × String)
deriving DecidableEq, Inhabited

/-- The writer adapter `file_writer(filename, signal, do_async=False,
compressor=None, clevel=1, n_threads=None, **kwds)`, modelled by
returning the encode invocation it performs (or the exception its own
argument marshaling raises). -/
def file_writer (filename : String) (signal : Signal) (do_async : Bool)
    (compressor : Option String) (clevel : Int) (n_threads : Option Int)
    (kwds : List (String × String)) : Except PyError EncodeCall :=
  let endianess := (lookupKwd kwds "endianess").getD "<"
  let mrcz_endian := mrczEndian endianess
  let md := signal.metadata
  match signal.axes.getLast? with
  | none => Except.error PyError.indexError
  | some lastAxis =>
    let pixelunits := lastAxis.units
    (_WRITE_ORDER.mapM fun I =>
        (expectIdx signal.axes I).map AxisDescriptor.scale) >>= fun pixelsize =>
      let voltage := mdGet md "Acquisition_instrument.TEM.beam_energy"
      let C3 : ℚ := 0
      let gain := (mdGet md
        "Signal.Noise_properties.Variance_linear_model.gain_factor").getD 1
      Except.ok { isAsync := do_async, data := signal.data,
                  filename := filename, meta := md, endian := mrcz_endian,
                  pixelsize := pixelsize, pixelunits := pixelunits,
                  voltage := voltage, C3 := C3, gain := gain,
                  compressor := compressor, clevel := clevel,
                  n_threads := n_threads, extraKwds := [] }

/-! ## Concrete fixtures for witnesses -/

/-- A complete synthetic decoded header holding all fifteen
format-internal keys, with pixel sizes `[10, 20, 30]` and pixel units
`"nm"`. -/
def testHeader : Header :=
  [("compressor", HVal.str "zstd"), ("MRCtype", HVal.num 0),
   ("C3", HVal.num 0), ("dimensions", HVal.qlist [2, 3, 4]),
   ("dtype", HVal.str "float32"), ("extendedBytes", HVal.num 0),
   ("gain", HVal.num 1), ("maxImage", HVal.num 9),
   ("minImage", HVal.num 0), ("meanImage", HVal.num 4),
   ("metaId", HVal.num 7), ("packedBytes", HVal.num 64),
   ("pixelsize", HVal.qlist [10, 20, 30]),
   ("pixelunits", HVal.str "nm"), ("voltage", HVal.num 300)]

/-- Variant of `testHeader` with the `voltage` key missing. -/
def badHeader : Header :=
  [("compressor", HVal.str "zstd"), ("MRCtype", HVal.num 0),
   ("C3", HVal.num 0), ("dimensions", HVal.qlist [2, 3, 4]),
   ("dtype", HVal.str "float32"), ("extendedBytes", HVal.num 0),
   ("gain", HVal.num 1), ("maxImage", HVal.num 9),
   ("minImage", HVal.num 0), ("meanImage", HVal.num 4),
   ("metaId", HVal.num 7), ("packedBytes", HVal.num 64),
   ("pixelsize", HVal.qlist [10, 20, 30]),
   ("pixelunits", HVal.str "nm")]

/-- Outcome of reading a `2 × 3 × 4` data array with `testHeader`. -/
def testRead : ReadOutcome :=
  file_reader "test.mrcz" "<" false "c" [] [2, 3, 4] testHeader

/-- The single signal dictionary produced by `testRead`. -/
def testDict : SignalDict :=
  match testRead.result with
  | Except.ok (d :: _) => d
  | _ => default

/-- The first (navigation) axis of `testDict`. -/
def testAxisZ : AxisDescriptor := testDict.axes.headD default

/-- A three-axis signal with per-axis scales `[1, 2, 3]` and no
metadata entries. -/
def testSignal : Signal :=
  { data := [2, 3, 4],
    axes := [{ size := 2, index_in_array := 0, name := "z", scale := 1,
               offset := 0, units := "nm", navigate := true },
             { size := 3, index_in_array := 1, name := "y", scale := 2,
               offset := 0, units := "nm", navigate := false },
             { size := 4, index_in_array := 2, name := "x", scale := 3,
               offset := 0, units := "nm", navigate := false }],
    metadata := [] }

/-- The encode call recorded when writing `testSignal`. -/
def rtCall : EncodeCall :=
  match file_writer "rt.mrcz" testSignal false none 1 none [] with
  | Except.ok c => c
  | Except.error _ => default

/-- A header as decoded after the `testSignal` round trip: `testHeader`
with the written pixel sizes `[1, 2, 3]`. -/
def rtHeader : Header :=
  [("compressor", HVal.str "zstd"), ("MRCtype", HVal.num 0),
   ("C3", HVal.num 0), ("dimensions", HVal.qlist [2, 3, 4]),
   ("dtype", HVal.str "float32"), ("extendedBytes", HVal.num 0),
   ("gain", HVal.num 1), ("maxImage", HVal.num 9),
   ("minImage", HVal.num 0), ("meanImage", HVal.num 4),
   ("metaId", HVal.num 7), ("packedBytes", HVal.num 64),
   ("pixelsize", HVal.qlist [1, 2, 3]),
   ("pixelunits", HVal.str "nm"), ("voltage", HVal.num 300)]

/-- Outcome of reading back the round-trip header. -/
def rtRead : ReadOutcome :=
  file_reader "rt.mrcz" "<" false "c" [] [2, 3, 4] rtHeader

/-- The signal dictionary produced by `rtRead`. -/
def rtDict : SignalDict :=
  match rtRead.result with
  | Except.ok (d :: _) => d
  | _ => default

/-- The encode call recorded for an asynchronous write of `testSignal`
with assorted options. -/
def wCall : EncodeCall :=
  match file_writer "w.mrcz" testSignal true (some "zstd") 2 (some 4)
      [("blosc_opts", "9")] with
  | Except.ok c => c
  | Except.error _ => default

/-- The encode call recorded when writing `testSignal` with the
undocumented endianness indicator `"x"`. -/
def xCall : EncodeCall :=
  match file_writer "x.mrcz" testSignal false none 1 none
      [("endianess", "x")] with
  | Except.ok c => c
  | Except.error _ => default

/-! ## Helper lemmas -/

lemma ok_bind {α β : Type} (a : α) (f : α → Except PyError β) :
    (Except.ok a >>= f) = f a := rfl

lemma error_bind {α β : Type} (e : PyError) (f : α → Except PyError β) :
    ((Except.error e : Except PyError α) >>= f) = Except.error e := rfl

lemma pure_eq_ok {α : Type} (a : α) : (pure a : Except PyError α) = Except.ok a := rfl

lemma readPlan_eq : ((_READ_ORDER.zip [false, false, true]).enum) =
    [(0, (1, false)), (1, (2, false)), (2, (0, true))] := rfl

lemma mapM_triple {α β : Type} (f : α → Except PyError β) (x0 x1 x2 : α) :
    List.mapM f [x0, x1, x2] = (do
      let a ← f x0
      let b ← f x1
      let c ← f x2
      pure [a, b, c]) := rfl

lemma headerGet_cons (p : String × HVal) (t : Header) (k : String) :
    headerGet (p :: t) k = if p.1 = k then some p.2 else headerGet t k := by
  by_cases hp : p.1 = k <;> simp [headerGet, List.find?_cons, hp]

lemma headerRemove_cons (p : String × HVal) (t : Header) (k : String) :
    headerRemove (p :: t) k =
      if p.1 = k then headerRemove t k else p :: headerRemove t k := by
  by_cases hp : p.1 = k <;> simp [headerRemove, List.filter_cons, hp]

lemma headerGet_remove_self (h : Header) (k : String) :
    headerGet (headerRemove h k) k = none := by
  induction h with
  | nil => rfl
  | cons p t ih =>
    rw [headerRemove_cons]
    by_cases hp : p.1 = k
    · simpa [hp] using ih
    · rw [if_neg hp, headerGet_cons, if_neg hp]
      exact ih

lemma headerGet_remove_other (h : Header) (k k2 : String) (hne : k ≠ k2) :
    headerGet (headerRemove h k2) k = headerGet h k := by
  induction h with
  | nil => rfl
  | cons p t ih =>
    rw [headerRemove_cons]
    by_cases hp : p.1 = k2
    · rw [if_pos hp, headerGet_cons, if_neg (by rw [hp]; exact fun he => hne he.symm)]
      exact ih
    · rw [if_neg hp, headerGet_cons, headerGet_cons]
      by_cases hk : p.1 = k
      · rw [if_pos hk, if_pos hk]
      · rw [if_neg hk, if_neg hk]
        exact ih

lemma popKey_ok (h : Header) (k : String) (hc : headerContains h k = true) :
    popKey h k = Except.ok (headerRemove h k) := by
  simp [popKey, hc]

lemma popKey_error (h : Header) (k : String) (hc : headerContains h k = false) :
    popKey h k = Except.error (PyError.keyError k) := by
  simp [popKey, hc]

lemma foldlM_popKey_nil (h : Header) :
    ([] : List String).foldlM popKey h = Except.ok h := rfl

lemma foldlM_popKey_cons (k : String) (t : List String) (h : Header) :
    (k :: t).foldlM popKey h = (popKey h k >>= fun h2 => t.foldlM popKey h2) := rfl

lemma contains_remove_self (h : Header) (k : String) :
    headerContains (headerRemove h k) k = false := by
  simp [headerContains, headerGet_remove_self]

lemma contains_remove_other (h : Header) (k k2 : String) (hne : k ≠ k2) :
    headerContains (headerRemove h k2) k = headerContains h k := by
  simp [headerContains, headerGet_remove_other h k k2 hne]

lemma foldlM_popKey_absent (keys : List String) (h m : Header) (k : String)
    (hfold : keys.foldlM popKey h = Except.ok m)
    (habs : headerContains h k = false) : headerContains m k = false := by
  induction keys generalizing h with
  | nil =>
    rw [foldlM_popKey_nil] at hfold
    injection hfold with h2
    rw [← h2]
    exact habs
  | cons k0 t ih =>
    rw [foldlM_popKey_cons] at hfold
    cases hc : headerContains h k0 with
    | false => rw [popKey_error _ _ hc, error_bind] at hfold; injection hfold
    | true =>
      rw [popKey_ok _ _ hc, ok_bind] at hfold
      refine ih (headerRemove h k0) hfold ?_
      by_cases hk : k = k0
      · rw [hk]; exact contains_remove_self h k0
      · rw [contains_remove_other h k k0 hk]; exact habs

lemma foldlM_popKey_ok (keys : List String) (h : Header)
    (hnd : keys.Nodup)
    (hall : ∀ k, k ∈ keys → headerContains h k = true) :
    ∃ m, keys.foldlM popKey h = Except.ok m ∧
      ∀ k, k ∈ keys → headerContains m k = false := by
  induction keys generalizing h with
  | nil => exact ⟨h, rfl, by simp⟩
  | cons k0 t ih =>
    have hc : headerContains h k0 = true := hall k0 (List.mem_cons_self k0 t)
    have hnot : k0 ∉ t := (List.nodup_cons.mp hnd).1
    have hndt : t.Nodup := (List.nodup_cons.mp hnd).2
    have hall2 : ∀ k, k ∈ t → headerContains (headerRemove h k0) k = true := by
      intro k hk
      have hne : k ≠ k0 := fun he => hnot (he ▸ hk)
      rw [contains_remove_other h k k0 hne]
      exact hall k (List.mem_cons_of_mem k0 hk)
    obtain ⟨m, hm, habs⟩ := ih (headerRemove h k0) hndt hall2
    refine ⟨m, ?_, ?_⟩
    · rw [foldlM_popKey_cons, popKey_ok _ _ hc, ok_bind]
      exact hm
    · intro k hk
      rcases List.mem_cons.mp hk with he | ht
      · rw [he]
        exact foldlM_popKey_absent t _ m k0 hm (contains_remove_self h k0)
      · exact habs k ht

lemma foldlM_popKey_error (keys : List String) (h : Header) (k : String)
    (hk : k ∈ keys) (habs : headerContains h k = false) :
    ∃ e, keys.foldlM popKey h = Except.error (PyError.keyError e) := by
  induction keys generalizing h with
  | nil => cases hk
  | cons k0 t ih =>
    cases hc : headerContains h k0 with
    | false =>
      exact ⟨k0, by rw [foldlM_popKey_cons, popKey_error _ _ hc, error_bind]⟩
    | true =>
      have hkt : k ∈ t := by
        rcases List.mem_cons.mp hk with he | ht
        · rw [he] at habs; rw [habs] at hc; cases hc
        · exact ht
      have hne : k ≠ k0 := fun he => by rw [he] at habs; rw [habs] at hc; cases hc
      obtain ⟨e, he⟩ := ih (headerRemove h k0) hkt
        (by rw [contains_remove_other h k k0 hne]; exact habs)
      exact ⟨e, by rw [foldlM_popKey_cons, popKey_ok _ _ hc, ok_bind]; exact he⟩

lemma pruneHeader_ok_inv (hdr m : Header) (hok : pruneHeader hdr = Except.ok m) :
    (∀ k, k ∈ _POP_FROM_HEADER → headerContains hdr k = true) ∧
    (∀ k, k ∈ _POP_FROM_HEADER → headerContains m k = false) := by
  have hall : ∀ k, k ∈ _POP_FROM_HEADER → headerContains hdr k = true := by
    intro k hk
    cases hcc : headerContains hdr k with
    | true => rfl
    | false =>
      obtain ⟨e, he⟩ := foldlM_popKey_error _ hdr k hk hcc
      rw [pruneHeader, he] at hok
      injection hok
  refine ⟨hall, ?_⟩
  obtain ⟨m2, hm2, habs⟩ := foldlM_popKey_ok _ hdr (by decide) hall
  rw [pruneHeader, hm2] at hok
  injection hok with h2
  rw [← h2]
  exact habs

lemma _WRITE_ORDER_eq : _WRITE_ORDER = [0, 1, 2] := rfl

lemma expectIdx_ok {α : Type} (l : List α) (i : Nat) (x : α)
    (hg : l.get? i = some x) : expectIdx l i = Except.ok x := by
  unfold expectIdx
  rw [hg]

lemma expectIdx_ok_inv {α : Type} (l : List α) (i : Nat) (x : α)
    (h : expectIdx l i = Except.ok x) : l.get? i = some x := by
  unfold expectIdx at h
  cases hg : l.get? i <;> rw [hg] at h
  · injection h
  · injection h with h2
    rw [h2]

lemma expectIdx_error {α : Type} (l : List α) (i : Nat) (e : PyError)
    (h : expectIdx l i = Except.error e) : e = PyError.indexError := by
  unfold expectIdx at h
  cases hg : l.get? i <;> rw [hg] at h
  · injection h with h2
    exact h2.symm
  · injection h

lemma popInsertFront_error {α : Type} (l : List α) (e : PyError)
    (h : popInsertFront l = Except.error e) : e = PyError.indexError := by
  unfold popInsertFront at h
  cases hg : l.get? 2 <;> rw [hg] at h
  · injection h with h2
    exact h2.symm
  · injection h

lemma popInsertFront_triple {α : Type} (a b c : α) :
    popInsertFront [a, b, c] = Except.ok [c, a, b] := rfl

lemma headerPixelsize_error (hdr : Header) (e : PyError)
    (h : headerPixelsize hdr = Except.error e) : e.isValueErr = false := by
  unfold headerPixelsize at h
  cases hg : headerGet hdr "pixelsize" <;> rw [hg] at h
  · injection h with h2
    rw [← h2]
    rfl
  · rename_i v
    cases v
    · injection h with h2; rw [← h2]; rfl
    · injection h with h2; rw [← h2]; rfl
    · injection h
    · injection h with h2; rw [← h2]; rfl

lemma headerPixelunits_error (hdr : Header) (e : PyError)
    (h : headerPixelunits hdr = Except.error e) : e.isValueErr = false := by
  unfold headerPixelunits at h
  cases hg : headerGet hdr "pixelunits" <;> rw [hg] at h
  · injection h with h2
    rw [← h2]
    rfl
  · rename_i v
    cases v
    · injection h with h2; rw [← h2]; rfl
    · injection h
    · injection h with h2; rw [← h2]; rfl
    · injection h with h2; rw [← h2]; rfl

lemma buildAxis_error (shape : List Nat) (ps : List ℚ) (pu : String)
    (index hsIndex : Nat) (nav : Bool) (e : PyError)
    (h : buildAxis shape ps pu index hsIndex nav = Except.error e) :
    e = PyError.indexError := by
  unfold buildAxis at h
  cases h1 : expectIdx shape hsIndex with
  | error e1 =>
    rw [h1, error_bind] at h
    injection h with h2
    rw [← h2]
    exact expectIdx_error _ _ _ h1
  | ok size =>
    rw [h1, ok_bind] at h
    cases h2 : expectIdx ["y", "x", "z"] index with
    | error e2 =>
      rw [h2, error_bind] at h
      injection h with h3
      rw [← h3]
      exact expectIdx_error _ _ _ h2
    | ok name =>
      rw [h2, ok_bind] at h
      cases h3 : expectIdx ps hsIndex with
      | error e3 =>
        rw [h3, error_bind] at h
        injection h with h4
        rw [← h4]
        exact expectIdx_error _ _ _ h3
      | ok scale =>
        rw [h3, ok_bind, pure_eq_ok] at h
        injection h

lemma buildAxis_ok_inv (shape : List Nat) (ps : List ℚ) (pu : String)
    (index hsIndex : Nat) (nav : Bool) (a : AxisDescriptor)
    (h : buildAxis shape ps pu index hsIndex nav = Except.ok a) :
    ∃ size name scale, shape.get? hsIndex = some size ∧
      (["y", "x", "z"] : List String).get? index = some name ∧
      ps.get? hsIndex = some scale ∧
      a = { size := size, index_in_array := hsIndex, name := name,
            scale := scale, offset := 0, units := pu, navigate := nav } := by
  unfold buildAxis at h
  cases h1 : expectIdx shape hsIndex with
  | error e1 => rw [h1, error_bind] at h; injection h
  | ok size =>
    rw [h1, ok_bind] at h
    cases h2 : expectIdx ["y", "x", "z"] index with
    | error e2 => rw [h2, error_bind] at h; injection h
    | ok name =>
      rw [h2, ok_bind] at h
      cases h3 : expectIdx ps hsIndex with
      | error e3 => rw [h3, error_bind] at h; injection h
      | ok scale =>
        rw [h3, ok_bind, pure_eq_ok] at h
        injection h with h4
        exact ⟨size, name, scale, expectIdx_ok_inv _ _ _ h1,
          expectIdx_ok_inv _ _ _ h2, expectIdx_ok_inv _ _ _ h3, h4.symm⟩

lemma constructAxes_ok_inv (shape : List Nat) (hdr : Header)
    (axes0 : List AxisDescriptor)
    (h : constructAxes shape hdr = Except.ok axes0) :
    ∃ ps pu n0 n1 n2 p0 p1 p2,
      headerPixelsize hdr = Except.ok ps ∧
      headerPixelunits hdr = Except.ok pu ∧
      shape.get? 0 = some n0 ∧ shape.get? 1 = some n1 ∧
      shape.get? 2 = some n2 ∧
      ps.get? 0 = some p0 ∧ ps.get? 1 = some p1 ∧ ps.get? 2 = some p2 ∧
      axes0 = [{ size := n1, index_in_array := 1, name := "y", scale := p1,
                 offset := 0, units := pu, navigate := false },
               { size := n2, index_in_array := 2, name := "x", scale := p2,
                 offset := 0, units := pu, navigate := false },
               { size := n0, index_in_array := 0, name := "z", scale := p0,
                 offset := 0, units := pu, navigate := true }] := by
  unfold constructAxes at h
  cases hps : headerPixelsize hdr with
  | error e1 => rw [hps, error_bind] at h; injection h
  | ok ps =>
    rw [hps, ok_bind] at h
    cases hpu : headerPixelunits hdr with
    | error e1 => rw [hpu, error_bind] at h; injection h
    | ok pu =>
      rw [hpu, ok_bind, readPlan_eq, mapM_triple] at h
      cases hb0 : buildAxis shape ps pu 0 1 false with
      | error e1 => rw [hb0, error_bind] at h; injection h
      | ok a0 =>
        rw [hb0, ok_bind] at h
        cases hb1 : buildAxis shape ps pu 1 2 false with
        | error e1 => rw [hb1, error_bind] at h; injection h
        | ok a1 =>
          rw [hb1, ok_bind] at h
          cases hb2 : buildAxis shape ps pu 2 0 true with
          | error e1 => rw [hb2, error_bind] at h; injection h
          | ok a2 =>
            rw [hb2, ok_bind, pure_eq_ok] at h
            injection h with h4
            obtain ⟨s0, nm0, sc0, hg0, hn0, hq0, ha0⟩ :=
              buildAxis_ok_inv _ _ _ _ _ _ _ hb0
            obtain ⟨s1, nm1, sc1, hg1, hn1, hq1, ha1⟩ :=
              buildAxis_ok_inv _ _ _ _ _ _ _ hb1
            obtain ⟨s2, nm2, sc2, hg2, hn2, hq2, ha2⟩ :=
              buildAxis_ok_inv _ _ _ _ _ _ _ hb2
            have hm0 : nm0 = "y" := by
              have := hn0
              simp [List.get?] at this
              exact this.symm
            have hm1 : nm1 = "x" := by
              have := hn1
              simp [List.get?] at this
              exact this.symm
            have hm2 : nm2 = "z" := by
              have := hn2
              simp [List.get?] at this
              exact this.symm
            refine ⟨ps, pu, s2, s0, s1, sc2, sc0, sc1, rfl, rfl,
              hg2, hg0, hg1, hq2, hq0, hq1, ?_⟩
            rw [← h4, ha0, ha1, ha2, hm0, hm1, hm2]

lemma constructAxes_error (shape : List Nat) (hdr : Header) (e : PyError)
    (h : constructAxes shape hdr = Except.error e) : e.isValueErr = false := by
  unfold constructAxes at h
  cases hps : headerPixelsize hdr with
  | error e1 =>
    rw [hps, error_bind] at h
    injection h with h2
    rw [← h2]
    exact headerPixelsize_error _ _ hps
  | ok ps =>
    rw [hps, ok_bind] at h
    cases hpu : headerPixelunits hdr with
    | error e1 =>
      rw [hpu, error_bind] at h
      injection h with h2
      rw [← h2]
      exact headerPixelunits_error _ _ hpu
    | ok pu =>
      rw [hpu, ok_bind, readPlan_eq, mapM_triple] at h
      cases hb0 : buildAxis shape ps pu 0 1 false with
      | error e1 =>
        rw [hb0, error_bind] at h
        injection h with h2
        rw [← h2, buildAxis_error _ _ _ _ _ _ _ hb0]
        rfl
      | ok a0 =>
        rw [hb0, ok_bind] at h
        cases hb1 : buildAxis shape ps pu 1 2 false with
        | error e1 =>
          rw [hb1, error_bind] at h
          injection h with h2
          rw [← h2, buildAxis_error _ _ _ _ _ _ _ hb1]
          rfl
        | ok a1 =>
          rw [hb1, ok_bind] at h
          cases hb2 : buildAxis shape ps pu 2 0 true with
          | error e1 =>
            rw [hb2, error_bind] at h
            injection h with h2
            rw [← h2, buildAxis_error _ _ _ _ _ _ _ hb2]
            rfl
          | ok a2 =>
            rw [hb2, ok_bind, pure_eq_ok] at h
            injection h

lemma foldlM_popKey_error_shape (keys : List String) (h : Header) (e : PyError)
    (herr : keys.foldlM popKey h = Except.error e) :
    ∃ k, e = PyError.keyError k := by
  induction keys generalizing h with
  | nil => rw [foldlM_popKey_nil] at herr; injection herr
  | cons k0 t ih =>
    rw [foldlM_popKey_cons] at herr
    cases hc : headerContains h k0 with
    | false =>
      rw [popKey_error _ _ hc, error_bind] at herr
      injection herr with h2
      exact ⟨k0, h2.symm⟩
    | true =>
      rw [popKey_ok _ _ hc, ok_bind] at herr
      exact ih (headerRemove h k0) herr

lemma readerBody_error (shape : List Nat) (hdr : Header) (e : PyError)
    (h : readerBody shape hdr = Except.error e) : e.isValueErr = false := by
  unfold readerBody at h
  cases hca : constructAxes shape hdr with
  | error e1 =>
    rw [hca, error_bind] at h
    injection h with h2
    rw [← h2]
    exact constructAxes_error _ _ _ hca
  | ok axes0 =>
    rw [hca, ok_bind] at h
    cases hpi : popInsertFront axes0 with
    | error e1 =>
      rw [hpi, error_bind] at h
      injection h with h2
      rw [← h2, popInsertFront_error _ _ hpi]
      rfl
    | ok axes =>
      rw [hpi, ok_bind] at h
      cases hpr : pruneHeader hdr with
      | error e1 =>
        rw [hpr, error_bind] at h
        injection h with h2
        unfold pruneHeader at hpr
        obtain ⟨k, hk⟩ := foldlM_popKey_error_shape _ _ _ hpr
        rw [← h2, hk]
        rfl
      | ok md =>
        rw [hpr, ok_bind, pure_eq_ok] at h
        injection h

lemma readerBody_ok_inv (shape : List Nat) (hdr : Header)
    (L : List SignalDict) (h : readerBody shape hdr = Except.ok L) :
    ∃ axes0 axes md,
      constructAxes shape hdr = Except.ok axes0 ∧
      popInsertFront axes0 = Except.ok axes ∧
      pruneHeader hdr = Except.ok md ∧
      L = [{ data := shape, axes := axes, metadata := md,
             original_metadata := [("mrcz_header", hdr)],
             mapping := mapping }] := by
  unfold readerBody at h
  cases hca : constructAxes shape hdr with
  | error e1 => rw [hca, error_bind] at h; injection h
  | ok axes0 =>
    rw [hca, ok_bind] at h
    cases hpi : popInsertFront axes0 with
    | error e1 => rw [hpi, error_bind] at h; injection h
    | ok axes =>
      rw [hpi, ok_bind] at h
      cases hpr : pruneHeader hdr with
      | error e1 => rw [hpr, error_bind] at h; injection h
      | ok md =>
        rw [hpr, ok_bind, pure_eq_ok] at h
        injection h with h2
        exact ⟨axes0, axes, md, rfl, hpi, rfl, h2.symm⟩

lemma file_reader_result_c (f e : String) (l : Bool)
    (kwds : List (String × String)) (shape : List Nat) (hdr : Header) :
    file_reader f e l "c" kwds shape hdr =
      { decodeCall := some
          { filename := f, endian := mrczEndian e, useMemmap := l,
            pixelunits := "nm", kwds := kwds },
        result := readerBody shape hdr } := by
  unfold file_reader
  rw [if_neg (by simp)]

lemma file_reader_not_c (f e : String) (l : Bool) (m : String)
    (kwds : List (String × String)) (shape : List Nat) (hdr : Header)
    (hm : m ≠ "c") :
    file_reader f e l m kwds shape hdr =
      { decodeCall := none,
        result := Except.error
          (PyError.valueError "MRCZ supports only C-ordering memory-maps") } := by
  unfold file_reader
  rw [if_pos hm]

lemma file_reader_ok_inv (f e : String) (l : Bool) (m : String)
    (kwds : List (String × String)) (shape : List Nat) (hdr : Header)
    (L : List SignalDict)
    (hres : (file_reader f e l m kwds shape hdr).result = Except.ok L) :
    m = "c" ∧ ∃ axes0 axes md,
      constructAxes shape hdr = Except.ok axes0 ∧
      popInsertFront axes0 = Except.ok axes ∧
      pruneHeader hdr = Except.ok md ∧
      L = [{ data := shape, axes := axes, metadata := md,
             original_metadata := [("mrcz_header", hdr)],
             mapping := mapping }] := by
  by_cases hm : m = "c"
  · subst hm
    rw [file_reader_result_c] at hres
    exact ⟨rfl, readerBody_ok_inv _ _ _ hres⟩
  · rw [file_reader_not_c _ _ _ _ _ _ _ hm] at hres
    injection hres

lemma file_writer_eq (fn : String) (sig : Signal) (da : Bool)
    (c : Option String) (cl : Int) (nt : Option Int)
    (kwds : List (String × String)) (a0 a1 a2 last : AxisDescriptor)
    (h0 : sig.axes.get? 0 = some a0) (h1 : sig.axes.get? 1 = some a1)
    (h2 : sig.axes.get? 2 = some a2) (hl : sig.axes.getLast? = some last) :
    file_writer fn sig da c cl nt kwds = Except.ok
      { isAsync := da, data := sig.data, filename := fn,
        meta := sig.metadata,
        endian := mrczEndian ((lookupKwd kwds "endianess").getD "<"),
        pixelsize := [a0.scale, a1.scale, a2.scale],
        pixelunits := last.units,
        voltage := mdGet sig.metadata "Acquisition_instrument.TEM.beam_energy",
        C3 := 0,
        gain := (mdGet sig.metadata
          "Signal.Noise_properties.Variance_linear_model.gain_factor").getD 1,
        compressor := c, clevel := cl, n_threads := nt,
        extraKwds := [] } := by
  simp only [file_writer, hl, _WRITE_ORDER_eq, mapM_triple,
    expectIdx_ok _ _ _ h0, expectIdx_ok _ _ _ h1, expectIdx_ok _ _ _ h2,
    Except.map, ok_bind, pure_eq_ok]

lemma file_writer_ok_inv (fn : String) (sig : Signal) (da : Bool)
    (c : Option String) (cl : Int) (nt : Option Int)
    (kwds : List (String × String)) (call : EncodeCall)
    (hw : file_writer fn sig da c cl nt kwds = Except.ok call) :
    call.isAsync = da ∧
    call.endian = mrczEndian ((lookupKwd kwds "endianess").getD "<") ∧
    call.meta = sig.metadata ∧ call.C3 = 0 ∧
    call.voltage = mdGet sig.metadata "Acquisition_instrument.TEM.beam_energy" ∧
    call.gain = (mdGet sig.metadata
      "Signal.Noise_properties.Variance_linear_model.gain_factor").getD 1 ∧
    call.compressor = c ∧ call.clevel = cl ∧ call.n_threads = nt ∧
    call.data = sig.data ∧ call.filename = fn ∧ call.extraKwds = [] := by
  cases hlast : sig.axes.getLast? with
  | none =>
    simp only [file_writer, hlast] at hw
    injection hw
  | some last =>
    simp only [file_writer, hlast] at hw
    cases hmp : _WRITE_ORDER.mapM (fun I =>
        (expectIdx sig.axes I).map AxisDescriptor.scale) with
    | error e1 => rw [hmp, error_bind] at hw; injection hw
    | ok ps =>
      rw [hmp, ok_bind] at hw
      injection hw with h2
      rw [← h2]
      exact ⟨rfl, rfl, rfl, rfl, rfl, rfl, rfl, rfl, rfl, rfl, rfl, rfl⟩

lemma file_writer_pixelsize (fn : String) (sig : Signal) (da : Bool)
    (c : Option String) (cl : Int) (nt : Option Int)
    (kwds : List (String × String)) (call : EncodeCall)
    (a0 a1 a2 : AxisDescriptor)
    (hw : file_writer fn sig da c cl nt kwds = Except.ok call)
    (h0 : sig.axes.get? 0 = some a0) (h1 : sig.axes.get? 1 = some a1)
    (h2 : sig.axes.get? 2 = some a2) :
    call.pixelsize = [a0.scale, a1.scale, a2.scale] := by
  cases hlast : sig.axes.getLast? with
  | none =>
    have hne : sig.axes ≠ [] := by
      intro he
      rw [he] at h0
      simp at h0
    rw [List.getLast?_eq_getLast _ hne] at hlast
    injection hlast
  | some last =>
    rw [file_writer_eq fn sig da c cl nt kwds a0 a1 a2 last h0 h1 h2 hlast] at hw
    injection hw with h3
    rw [← h3]

lemma file_writer_succeeds (fn : String) (sig : Signal) (da : Bool)
    (c : Option String) (cl : Int) (nt : Option Int)
    (kwds : List (String × String)) (h3 : 3 ≤ sig.axes.length) :
    ∃ call, file_writer fn sig da c cl nt kwds = Except.ok call := by
  have hne : sig.axes ≠ [] := by
    intro he
    rw [he] at h3
    cases h3
  have h0 : sig.axes.get? 0 = some (sig.axes.get ⟨0, by omega⟩) :=
    List.get?_eq_get (by omega)
  have h1 : sig.axes.get? 1 = some (sig.axes.get ⟨1, by omega⟩) :=
    List.get?_eq_get (by omega)
  have h2 : sig.axes.get? 2 = some (sig.axes.get ⟨2, by omega⟩) :=
    List.get?_eq_get (by omega)
  exact ⟨_, file_writer_eq fn sig da c cl nt kwds _ _ _
    (sig.axes.getLast hne) h0 h1 h2 (List.getLast?_eq_getLast _ hne)⟩

lemma get?_of_take3 {α : Type} (l : List α) (a b c : α)
    (h : l.take 3 = [a, b, c]) :
    l.get? 0 = some a ∧ l.get? 1 = some b ∧ l.get? 2 = some c := by
  cases l with
  | nil =>
    rw [show ([] : List α).take 3 = [] from rfl] at h
    injection h
  | cons x t =>
    cases t with
    | nil =>
      rw [show ([x] : List α).take 3 = [x] from rfl] at h
      injection h with e1 h2
      injection h2
    | cons y t2 =>
      cases t2 with
      | nil =>
        rw [show ([x, y] : List α).take 3 = [x, y] from rfl] at h
        injection h with e1 h2
        injection h2 with e2 h3
        injection h3
      | cons z t3 =>
        rw [show (x :: y :: z :: t3).take 3 = [x, y, z] from rfl] at h
        injection h with e1 h2
        injection h2 with e2 h3
        injection h3 with e3 _
        rw [e1, e2, e3]
        exact ⟨rfl, rfl, rfl⟩

lemma reader_ok_axes (f e : String) (l : Bool) (m : String)
    (kwds : List (String × String)) (shape : List Nat) (hdr : Header)
    (d : SignalDict) (ps : List ℚ) (pu : String) (n0 n1 n2 : Nat)
    (p0 p1 p2 : ℚ)
    (hres : (file_reader f e l m kwds shape hdr).result = Except.ok [d])
    (hps : headerPixelsize hdr = Except.ok ps)
    (hpu : headerPixelunits hdr = Except.ok pu)
    (hs : shape.take 3 = [n0, n1, n2]) (hp : ps.take 3 = [p0, p1, p2]) :
    constructAxes shape hdr = Except.ok
      [{ size := n1, index_in_array := 1, name := "y", scale := p1,
         offset := 0, units := pu, navigate := false },
       { size := n2, index_in_array := 2, name := "x", scale := p2,
         offset := 0, units := pu, navigate := false },
       { size := n0, index_in_array := 0, name := "z", scale := p0,
         offset := 0, units := pu, navigate := true }] ∧
    d.axes =
      [{ size := n0, index_in_array := 0, name := "z", scale := p0,
         offset := 0, units := pu, navigate := true },
       { size := n1, index_in_array := 1, name := "y", scale := p1,
         offset := 0, units := pu, navigate := false },
       { size := n2, index_in_array := 2, name := "x", scale := p2,
         offset := 0, units := pu, navigate := false }] := by
  obtain ⟨hm, axes0, axes, md, hca, hpi, hpr, hL⟩ :=
    file_reader_ok_inv f e l m kwds shape hdr [d] hres
  obtain ⟨ps2, pu2, m0, m1, m2, q0, q1, q2, hps2, hpu2, hg0, hg1, hg2,
    hq0, hq1, hq2, ha0⟩ := constructAxes_ok_inv shape hdr axes0 hca
  rw [hps] at hps2
  injection hps2 with heq
  subst heq
  rw [hpu] at hpu2
  injection hpu2 with heq2
  subst heq2
  obtain ⟨hs0, hs1, hs2⟩ := get?_of_take3 shape n0 n1 n2 hs
  obtain ⟨hp0, hp1, hp2⟩ := get?_of_take3 ps p0 p1 p2 hp
  rw [hs0] at hg0
  injection hg0 with e0
  subst e0
  rw [hs1] at hg1
  injection hg1 with e1
  subst e1
  rw [hs2] at hg2
  injection hg2 with e2
  subst e2
  rw [hp0] at hq0
  injection hq0 with f0
  subst f0
  rw [hp1] at hq1
  injection hq1 with f1
  subst f1
  rw [hp2] at hq2
  injection hq2 with f2
  subst f2
  subst ha0
  rw [popInsertFront_triple] at hpi
  injection hpi with haxes
  subst haxes
  injection hL with hd _
  subst hd
  exact ⟨hca, rfl⟩

/-! ## Claim theorems -/

/-- Claim C1: for every successful read, the reader builds exactly
three axis descriptors whose scales are assigned from the header
pixel-size array via the fixed permutation `[1, 2, 0]` (constructed
axis 0 gets pixel-size index 1, and so on); a final reordering moves
the third constructed axis to the front, after which the first axis is
the `"z"` axis with `navigate = true`, the remaining two are `"y"` and
`"x"` with `navigate = false`, and the sizes equal the data array
dimension sizes in array order. -/
theorem mrcz_C1_read_axis_construction (f e : String) (l : Bool)
    (m : String) (kwds : List (String × String)) (shape : List Nat)
    (hdr : Header) (d : SignalDict) (ps : List ℚ) (pu : String)
    (n0 n1 n2 : Nat) (p0 p1 p2 : ℚ)
    (hres : (file_reader f e l m kwds shape hdr).result = Except.ok [d])
    (hps : headerPixelsize hdr = Except.ok ps)
    (hpu : headerPixelunits hdr = Except.ok pu)
    (hs : shape.take 3 = [n0, n1, n2]) (hp : ps.take 3 = [p0, p1, p2]) :
    constructAxes shape hdr = Except.ok
      [{ size := n1, index_in_array := 1, name := "y", scale := p1,
         offset := 0, units := pu, navigate := false },
       { size := n2, index_in_array := 2, name := "x", scale := p2,
         offset := 0, units := pu, navigate := false },
       { size := n0, index_in_array := 0, name := "z", scale := p0,
         offset := 0, units := pu, navigate := true }] ∧
    d.axes =
      [{ size := n0, index_in_array := 0, name := "z", scale := p0,
         offset := 0, units := pu, navigate := true },
       { size := n1, index_in_array := 1, name := "y", scale := p1,
         offset := 0, units := pu, navigate := false },
       { size := n2, index_in_array := 2, name := "x", scale := p2,
         offset := 0, units := pu, navigate := false }] ∧
    d.axes.map AxisDescriptor.size = [n0, n1, n2] := by
  obtain ⟨h1, h2⟩ := reader_ok_axes f e l m kwds shape hdr d ps pu
    n0 n1 n2 p0 p1 p2 hres hps hpu hs hp
  refine ⟨h1, h2, ?_⟩
  rw [h2]
  rfl

/-- Witness for C1: reading a `2 × 3 × 4` array with header pixel
sizes `[10, 20, 30]` builds axes `y, x, z` with scales `20, 30, 10`
(permutation `[1, 2, 0]`) and, after the front rotation, returns axes
`z, y, x` with sizes `2, 3, 4` in array order. -/
theorem mrcz_C1_witness :
    constructAxes [2, 3, 4] testHeader = Except.ok
      [{ size := 3, index_in_array := 1, name := "y", scale := 20,
         offset := 0, units := "nm", navigate := false },
       { size := 4, index_in_array := 2, name := "x", scale := 30,
         offset := 0, units := "nm", navigate := false },
       { size := 2, index_in_array := 0, name := "z", scale := 10,
         offset := 0, units := "nm", navigate := true }] ∧
    testDict.axes =
      [{ size := 2, index_in_array := 0, name := "z", scale := 10,
         offset := 0, units := "nm", navigate := true },
       { size := 3, index_in_array := 1, name := "y", scale := 20,
         offset := 0, units := "nm", navigate := false },
       { size := 4, index_in_array := 2, name := "x", scale := 30,
         offset := 0, units := "nm", navigate := false }] ∧
    testDict.axes.map AxisDescriptor.size = [2, 3, 4] :=
  mrcz_C1_read_axis_construction "test.mrcz" "<" false "c" [] [2, 3, 4]
    testHeader testDict [10, 20, 30] "nm" 2 3 4 10 20 30 rfl rfl rfl rfl rfl

/-- Claim C2: the writer emits per-axis pixel sizes from the axis
descriptors in order `[0, 1, 2]`; reading a header carrying exactly the
emitted pixel-size list back (permutation `[1, 2, 0]` plus front
rotation) reproduces the original per-axis scales `[s0, s1, s2]`. -/
theorem mrcz_C2_scale_roundtrip (fn : String) (sig : Signal) (da : Bool)
    (c : Option String) (cl : Int) (nt : Option Int)
    (kwds : List (String × String)) (call : EncodeCall)
    (a0 a1 a2 : AxisDescriptor) (s0 s1 s2 : ℚ)
    (hw : file_writer fn sig da c cl nt kwds = Except.ok call)
    (h0 : sig.axes.get? 0 = some a0) (h1 : sig.axes.get? 1 = some a1)
    (h2 : sig.axes.get? 2 = some a2)
    (hs0 : a0.scale = s0) (hs1 : a1.scale = s1) (hs2 : a2.scale = s2)
    (f e : String) (l : Bool) (m : String)
    (kwds2 : List (String × String)) (shape : List Nat) (hdr : Header)
    (d : SignalDict) (pu : String) (n0 n1 n2 : Nat)
    (hres : (file_reader f e l m kwds2 shape hdr).result = Except.ok [d])
    (hhdr : headerPixelsize hdr = Except.ok call.pixelsize)
    (hpu : headerPixelunits hdr = Except.ok pu)
    (hshape : shape.take 3 = [n0, n1, n2]) :
    call.pixelsize = [s0, s1, s2] ∧
    d.axes.map AxisDescriptor.scale = [s0, s1, s2] := by
  have hps : call.pixelsize = [s0, s1, s2] := by
    rw [file_writer_pixelsize fn sig da c cl nt kwds call a0 a1 a2 hw h0 h1 h2,
      hs0, hs1, hs2]
  refine ⟨hps, ?_⟩
  rw [hps] at hhdr
  obtain ⟨_, h2⟩ := reader_ok_axes f e l m kwds2 shape hdr d [s0, s1, s2] pu
    n0 n1 n2 s0 s1 s2 hres hhdr hpu hshape rfl
  rw [h2]
  rfl

/-- Witness for C2: writing `testSignal` (scales `[1, 2, 3]`) records
pixel sizes `[1, 2, 3]`, and reading them back yields per-axis scales
`[1, 2, 3]` again. -/
theorem mrcz_C2_witness :
    rtCall.pixelsize = [1, 2, 3] ∧
    rtDict.axes.map AxisDescriptor.scale = [1, 2, 3] :=
  mrcz_C2_scale_roundtrip "rt.mrcz" testSignal false none 1 none [] rtCall
    (testSignal.axes.headD default) (testSignal.axes.getD 1 default)
    (testSignal.axes.getD 2 default) 1 2 3
    rfl rfl rfl rfl rfl rfl rfl
    "rt.mrcz" "<" false "c" [] [2, 3, 4] rtHeader rtDict "nm" 2 3 4
    rfl rfl rfl rfl

/-- Claim C3 (amended): the writer invokes the synchronous or
asynchronous encode variant according to the flag with the full
assembled keyword set (data, filename, meta, endian, pixelsize,
pixelunits, voltage, C3, gain, compressor, clevel, n_threads); any
supplied encode options other than the extracted endianness override
are discarded, not forwarded to the encode routine. -/
theorem mrcz_C3_writer_dispatch (fn : String) (sig : Signal) (da : Bool)
    (c : Option String) (cl : Int) (nt : Option Int)
    (kwds : List (String × String)) (call : EncodeCall)
    (hw : file_writer fn sig da c cl nt kwds = Except.ok call) :
    call.isAsync = da ∧
    call.endian = mrczEndian ((lookupKwd kwds "endianess").getD "<") ∧
    call.meta = sig.metadata ∧ call.C3 = 0 ∧
    call.voltage = mdGet sig.metadata "Acquisition_instrument.TEM.beam_energy" ∧
    call.gain = (mdGet sig.metadata
      "Signal.Noise_properties.Variance_linear_model.gain_factor").getD 1 ∧
    call.compressor = c ∧ call.clevel = cl ∧ call.n_threads = nt ∧
    call.data = sig.data ∧ call.filename = fn ∧ call.extraKwds = [] :=
  file_writer_ok_inv fn sig da c cl nt kwds call hw

/-- Counterexample for C3 as stated: a supplied encode option
`blosc_opts` is not passed through to the encode routine — the
recorded forwarded options are empty, not `[("blosc_opts", "9")]`. -/
theorem mrcz_C3_counterexample :
    (file_writer "t.mrcz" testSignal false none 1 none
      [("blosc_opts", "9")]).map EncodeCall.extraKwds = Except.ok [] ∧
    (Except.ok [] : Except PyError (List (String × String))) ≠
      Except.ok [("blosc_opts", "9")] := by
  refine ⟨rfl, ?_⟩
  intro h
  injection h with h2
  injection h2

/-- Witness for C3 (amended): an asynchronous write of `testSignal`
with compressor `zstd`, level 2, 4 threads and an extra option records
exactly the assembled keyword set, with the extra option discarded. -/
theorem mrcz_C3_witness :
    wCall.isAsync = true ∧
    wCall.endian = mrczEndian
      ((lookupKwd [("blosc_opts", "9")] "endianess").getD "<") ∧
    wCall.meta = testSignal.metadata ∧ wCall.C3 = 0 ∧
    wCall.voltage = mdGet testSignal.metadata
      "Acquisition_instrument.TEM.beam_energy" ∧
    wCall.gain = (mdGet testSignal.metadata
      "Signal.Noise_properties.Variance_linear_model.gain_factor").getD 1 ∧
    wCall.compressor = some "zstd" ∧ wCall.clevel = 2 ∧
    wCall.n_threads = some 4 ∧ wCall.data = testSignal.data ∧
    wCall.filename = "w.mrcz" ∧ wCall.extraKwds = [] :=
  mrcz_C3_writer_dispatch "w.mrcz" testSignal true (some "zstd") 2 (some 4)
    [("blosc_opts", "9")] wCall rfl

/-- Claim C4: after every successful read, none of the fifteen fixed
format-internal keys appears in the returned metadata mapping, while
the header attached under `original_metadata.mrcz_header` is the
unchanged decoded header, in which every one of the fifteen keys
appears. -/
theorem mrcz_C4_metadata_pruning (f e : String) (l : Bool) (m : String)
    (kwds : List (String × String)) (shape : List Nat) (hdr : Header)
    (d : SignalDict)
    (hres : (file_reader f e l m kwds shape hdr).result = Except.ok [d]) :
    ∀ k, k ∈ _POP_FROM_HEADER →
      headerGet d.metadata k = none ∧
      d.original_metadata = [("mrcz_header", hdr)] ∧
      headerContains hdr k = true := by
  obtain ⟨hm, axes0, axes, md, hca, hpi, hpr, hL⟩ :=
    file_reader_ok_inv f e l m kwds shape hdr [d] hres
  injection hL with hd _
  subst hd
  obtain ⟨hall, habs⟩ := pruneHeader_ok_inv hdr md hpr
  intro k hk
  refine ⟨?_, rfl, hall k hk⟩
  have hc := habs k hk
  cases hgk : headerGet md k with
  | none => rfl
  | some v =>
    rw [headerContains, hgk] at hc
    injection hc

/-- Witness for C4: after the concrete `testRead`, the `voltage` key is
absent from the exposed metadata but present in the attached original
header. -/
theorem mrcz_C4_witness :
    headerGet testDict.metadata "voltage" = none ∧
    testDict.original_metadata = [("mrcz_header", testHeader)] ∧
    headerContains testHeader "voltage" = true :=
  mrcz_C4_metadata_pruning "test.mrcz" "<" false "c" [] [2, 3, 4]
    testHeader testDict rfl "voltage" (by decide)

/-- Claim C5: metadata pruning fails with a lookup (`KeyError`) failure
whenever one of the expected format-internal keys is absent from the
decoded header, and succeeds whenever all of them are present. -/
theorem mrcz_C5_prune_lookup_error (hdr : Header) :
    ((∃ k, k ∈ _POP_FROM_HEADER ∧ headerContains hdr k = false) →
      ∃ k2, pruneHeader hdr = Except.error (PyError.keyError k2)) ∧
    ((∀ k, k ∈ _POP_FROM_HEADER → headerContains hdr k = true) →
      ∃ m, pruneHeader hdr = Except.ok m) := by
  constructor
  · rintro ⟨k, hk, habs⟩
    unfold pruneHeader
    exact foldlM_popKey_error _POP_FROM_HEADER hdr k hk habs
  · intro hall
    obtain ⟨m, hm, _⟩ := foldlM_popKey_ok _POP_FROM_HEADER hdr (by decide) hall
    exact ⟨m, by unfold pruneHeader; exact hm⟩

/-- Witness for C5: pruning `badHeader` (missing `voltage`) raises a
lookup error, pruning the complete `testHeader` succeeds. -/
theorem mrcz_C5_witness :
    (∃ k2, pruneHeader badHeader = Except.error (PyError.keyError k2)) ∧
    (∃ m, pruneHeader testHeader = Except.ok m) :=
  ⟨(mrcz_C5_prune_lookup_error badHeader).1 ⟨"voltage", by decide, by decide⟩,
   (mrcz_C5_prune_lookup_error testHeader).2 (by decide)⟩

/-- Claim C6: a read with a memory-map mode other than `"c"` raises the
invalid-argument failure before the decode call is attempted (no decode
call is recorded); with mode `"c"` the decode call is made and no
invalid-argument failure is ever raised. -/
theorem mrcz_C6_mmap_mode_check (f e : String) (l : Bool) (m : String)
    (kwds : List (String × String)) (shape : List Nat) (hdr : Header) :
    (m ≠ "c" →
      file_reader f e l m kwds shape hdr =
        { decodeCall := none,
          result := Except.error
            (PyError.valueError "MRCZ supports only C-ordering memory-maps") }) ∧
    (m = "c" →
      (file_reader f e l m kwds shape hdr).decodeCall.isSome = true ∧
      ∀ err, (file_reader f e l m kwds shape hdr).result = Except.error err →
        err.isValueErr = false) := by
  constructor
  · exact file_reader_not_c f e l m kwds shape hdr
  · intro hm
    subst hm
    rw [file_reader_result_c]
    exact ⟨rfl, fun err herr => readerBody_error shape hdr err herr⟩

/-- Witness for C6: memory-map mode `"r"` fails up front with the
invalid-argument message and records no decode call, while mode `"c"`
records a decode call. -/
theorem mrcz_C6_witness :
    file_reader "test.mrcz" "<" false "r" [] [2, 3, 4] testHeader =
      { decodeCall := none,
        result := Except.error
          (PyError.valueError "MRCZ supports only C-ordering memory-maps") } ∧
    (file_reader "test.mrcz" "<" false "c" [] [2, 3, 4]
      testHeader).decodeCall.isSome = true :=
  ⟨(mrcz_C6_mmap_mode_check "test.mrcz" "<" false "r" [] [2, 3, 4]
      testHeader).1 (by decide),
   ((mrcz_C6_mmap_mode_check "test.mrcz" "<" false "c" [] [2, 3, 4]
      testHeader).2 rfl).1⟩

/-- Claim C7: on write, a missing beam-energy entry is not an error —
the encode call receives voltage `none`; a missing gain entry makes the
encode call receive exactly `1.0`. -/
theorem mrcz_C7_missing_metadata_defaults (fn : String) (sig : Signal)
    (da : Bool) (c : Option String) (cl : Int) (nt : Option Int)
    (kwds : List (String × String))
    (h3 : 3 ≤ sig.axes.length)
    (hv : mdGet sig.metadata "Acquisition_instrument.TEM.beam_energy" = none)
    (hg : mdGet sig.metadata
      "Signal.Noise_properties.Variance_linear_model.gain_factor" = none) :
    ∃ call, file_writer fn sig da c cl nt kwds = Except.ok call ∧
      call.voltage = none ∧ call.gain = 1 := by
  obtain ⟨call, hcall⟩ := file_writer_succeeds fn sig da c cl nt kwds h3
  obtain ⟨_, _, _, _, hvolt, hgain, _⟩ :=
    file_writer_ok_inv fn sig da c cl nt kwds call hcall
  refine ⟨call, hcall, ?_, ?_⟩
  · rw [hvolt, hv]
  · rw [hgain, hg]
    rfl

/-- Witness for C7: writing `testSignal` (no metadata entries at all)
succeeds with voltage `none` and gain `1`. -/
theorem mrcz_C7_witness :
    ∃ call, file_writer "test.mrcz" testSignal false none 1 none [] =
      Except.ok call ∧ call.voltage = none ∧ call.gain = 1 :=
  mrcz_C7_missing_metadata_defaults "test.mrcz" testSignal false none 1
    none [] (by decide) rfl rfl

/-- Claim C8: every successful read returns a list holding exactly one
signal dictionary, whose entries are exactly the data array, the axes,
the pruned metadata, the original metadata holding the decoded header
under `mrcz_header`, and the static mapping table. -/
theorem mrcz_C8_single_signal_dictionary (f e : String) (l : Bool)
    (m : String) (kwds : List (String × String)) (shape : List Nat)
    (hdr : Header) (L : List SignalDict)
    (hres : (file_reader f e l m kwds shape hdr).result = Except.ok L) :
    ∃ d, L = [d] ∧ d.data = shape ∧
      d.original_metadata = [("mrcz_header", hdr)] ∧
      d.mapping = mapping ∧
      (∃ axes0, constructAxes shape hdr = Except.ok axes0 ∧
        popInsertFront axes0 = Except.ok d.axes) ∧
      pruneHeader hdr = Except.ok d.metadata := by
  obtain ⟨hm, axes0, axes, md, hca, hpi, hpr, hL⟩ :=
    file_reader_ok_inv f e l m kwds shape hdr L hres
  exact ⟨_, hL, rfl, rfl, rfl, ⟨axes0, hca, hpi⟩, hpr⟩

/-- Witness for C8: the concrete `testRead` returns exactly one
dictionary with the five expected entries. -/
theorem mrcz_C8_witness :
    ∃ d, [testDict] = [d] ∧ d.data = [2, 3, 4] ∧
      d.original_metadata = [("mrcz_header", testHeader)] ∧
      d.mapping = mapping ∧
      (∃ axes0, constructAxes [2, 3, 4] testHeader = Except.ok axes0 ∧
        popInsertFront axes0 = Except.ok d.axes) ∧
      pruneHeader testHeader = Except.ok d.metadata :=
  mrcz_C8_single_signal_dictionary "test.mrcz" "<" false "c" [] [2, 3, 4]
    testHeader [testDict] rfl

/-- Claim C9: every successful read returns exactly three axis
descriptors, all carrying the header pixel-units value as units and
offset `0.0`. -/
theorem mrcz_C9_axis_units_offsets (f e : String) (l : Bool) (m : String)
    (kwds : List (String × String)) (shape : List Nat) (hdr : Header)
    (d : SignalDict) (pu : String)
    (hres : (file_reader f e l m kwds shape hdr).result = Except.ok [d])
    (hpu : headerPixelunits hdr = Except.ok pu) :
    d.axes.length = 3 ∧ ∀ a, a ∈ d.axes → a.units = pu ∧ a.offset = 0 := by
  obtain ⟨hm, axes0, axes, md, hca, hpi, hpr, hL⟩ :=
    file_reader_ok_inv f e l m kwds shape hdr [d] hres
  obtain ⟨ps2, pu2, m0, m1, m2, q0, q1, q2, hps2, hpu2, hg0, hg1, hg2,
    hq0, hq1, hq2, ha0⟩ := constructAxes_ok_inv shape hdr axes0 hca
  rw [hpu] at hpu2
  injection hpu2 with heq
  subst heq
  subst ha0
  rw [popInsertFront_triple] at hpi
  injection hpi with haxes
  subst haxes
  injection hL with hd _
  subst hd
  refine ⟨rfl, ?_⟩
  intro a ha
  simp only [List.mem_cons, List.not_mem_nil, or_false] at ha
  rcases ha with h | h | h <;> subst h <;> exact ⟨rfl, rfl⟩

/-- Witness for C9: in the concrete `testRead` the first axis carries
units `"nm"` and offset `0`, and there are three axes. -/
theorem mrcz_C9_witness :
    testDict.axes.length = 3 ∧
    (testAxisZ.units = "nm" ∧ testAxisZ.offset = 0) :=
  ⟨(mrcz_C9_axis_units_offsets "test.mrcz" "<" false "c" [] [2, 3, 4]
      testHeader testDict "nm" rfl rfl).1,
   (mrcz_C9_axis_units_offsets "test.mrcz" "<" false "c" [] [2, 3, 4]
      testHeader testDict "nm" rfl rfl).2 testAxisZ (by decide)⟩

/-- Claim C10: in both the reader and the writer every endianness
indicator other than `"<"` — including values outside the documented
set — is silently mapped to the codec convention `"be"` with no
validation and no error, and only `"<"` maps to `"le"`. -/
theorem mrcz_C10_endianness_mapping (e2 : String) (he : e2 ≠ "<")
    (f : String) (l : Bool) (kwds : List (String × String))
    (shape : List Nat) (hdr : Header)
    (fn : String) (sig : Signal) (da : Bool) (c : Option String)
    (cl : Int) (nt : Option Int) (rest : List (String × String))
    (call : EncodeCall)
    (hw : file_writer fn sig da c cl nt (("endianess", e2) :: rest) =
      Except.ok call) :
    mrczEndian e2 = "be" ∧ mrczEndian "<" = "le" ∧
    (file_reader f e2 l "c" kwds shape hdr).decodeCall =
      some { filename := f, endian := "be", useMemmap := l,
             pixelunits := "nm", kwds := kwds } ∧
    call.endian = "be" := by
  have hbe : mrczEndian e2 = "be" := by
    unfold mrczEndian
    rw [if_neg he]
  refine ⟨hbe, rfl, ?_, ?_⟩
  · rw [file_reader_result_c, hbe]
  · have hend := (file_writer_ok_inv fn sig da c cl nt
      (("endianess", e2) :: rest) call hw).2.1
    have hl2 : lookupKwd (("endianess", e2) :: rest) "endianess" = some e2 := by
      simp [lookupKwd, List.find?_cons]
    rw [hend, hl2]
    exact hbe

/-- Witness for C10: the undocumented indicator `"x"` maps to `"be"` in
both the recorded decode call and the recorded encode call, while `"<"`
maps to `"le"`. -/
theorem mrcz_C10_witness :
    mrczEndian "x" = "be" ∧ mrczEndian "<" = "le" ∧
    (file_reader "x.mrcz" "x" false "c" [] [2, 3, 4] testHeader).decodeCall =
      some { filename := "x.mrcz", endian := "be", useMemmap := false,
             pixelunits := "nm", kwds := [] } ∧
    xCall.endian = "be" :=
  mrcz_C10_endianness_mapping "x" (by decide) "x.mrcz" false [] [2, 3, 4]
    testHeader "x.mrcz" testSignal false none 1 none [] xCall rfl

end Mrcz
